import Mathlib

/-!
Shallow embedding of the `src/api/posts.js` Express router of driwwwle-v2.

Documents are modelled as Lean structures, the Mongo collection as a
`List Post`, and each route handler as a pure function from the request
data (already authenticated: `req.userId` is a parameter) and the current
store to a `RouteResult` holding the HTTP status, the JSON body, the
store after the request, and the list of notification-helper calls the
handler performed.
-/

namespace Driwwwle

/-- One entry of the embedded `likes` / `saves` arrays of a `Post`
document (a `{ user }` subdocument). -/
structure LikeEntry where
  user : String
deriving DecidableEq, Repr

/-- One entry of the embedded `comments` array of a `Post` document.
`cid` models the `_id` field (a uuid string in the code). -/
structure CommentDoc where
  cid : String
  user : String
  text : String
  date : Nat
deriving DecidableEq, Repr

/-- A `Post` document. `pid` models `_id`; `createdAt` is the timestamp
the pagination sort key uses; `views` starts at the schema default. -/
structure Post where
  pid : String
  user : String
  title : String
  description : String
  images : List String
  liveDemo : String
  sourceCode : Option String
  techStack : List String
  likes : List LikeEntry
  saves : List LikeEntry
  comments : List CommentDoc
  views : Nat
  createdAt : Nat
deriving DecidableEq, Repr

/-- The part of a `User` document the posts router reads (`user.role`). -/
structure UserDoc where
  uid : String
  role : String
deriving DecidableEq, Repr

/-- A `Follower` document: the per-user `following` list of `{ user }`
subdocuments, as read by the `/feed` route. -/
structure FollowerDoc where
  user : String
  following : List LikeEntry
deriving DecidableEq, Repr

/-- `Post.findById`: first document in the store with the given id. -/
def findById (store : List Post) (pid : String) : Option Post :=
  store.find? (fun p => p.pid == pid)

/-- `post.save()` on a fetched document: persists the modified document
in place of the stored one with the same id. -/
def savePost (store : List Post) (p : Post) : List Post :=
  store.map (fun q => if q.pid == p.pid then p else q)

/-- `post.remove()`: deletes the (first) document with the given id. -/
def removePost (store : List Post) (pid : String) : List Post :=
  store.eraseP (fun q => q.pid == pid)

/-- `User.findById`. -/
def findUser (users : List UserDoc) (uid : String) : Option UserDoc :=
  users.find? (fun u => u.uid == uid)

/-- A call to one of the notification helpers imported from
`server-utils/notifications`, recorded with its arguments. -/
inductive NotifCall where
  | newLike (toUser fromUser postId : String)
  | removeLike (toUser fromUser postId : String)
  | newComment (toUser fromUser postId commentId text : String)
  | removeComment (toUser fromUser postId commentId : String)
deriving DecidableEq, Repr

/-- The JSON body a route responds with. -/
inductive Body where
  | msg (s : String)
  | post (p : Post)
  | comments (cs : List CommentDoc)
  | likes (ls : List LikeEntry)
  | page (posts : List Post) (next : Option Int)
  | postList (ps : List Post)
deriving DecidableEq, Repr

/-- Outcome of one request: HTTP status, body, the post collection after
the request, and the notification-helper calls made. -/
structure RouteResult where
  status : Nat
  body : Body
  store : List Post
  notifs : List NotifCall
deriving DecidableEq, Repr

/-- JS `parseInt(q, 10) || d`: an absent or unparsable query parameter
(`none`, for `NaN`) and the falsy value `0` both fall back to `d`. -/
def jsOr (v : Option Int) (d : Int) : Int :=
  match v with
  | none => d
  | some n => if n == 0 then d else n

/-- The `sort({ createdAt: -1 })` clause: documents in descending
`createdAt` order. -/
def sortByCreatedAtDesc (store : List Post) : List Post :=
  store.mergeSort (fun a b => decide (b.createdAt ≤ a.createdAt))

/-- POST `/api/posts` (create a post). `techStackRaw = none` models a
`techStack` body field that `JSON.parse` rejects (the thrown error is
caught by the catch-all and answered with 500). -/
def createPostRoute (store : List Post) (userId : String)
    (title description liveDemo sourceCode : String)
    (techStackRaw : Option (List String)) (files : List String)
    (newId : String) (now : Nat) : RouteResult :=
  if files.length < 1 then
    ⟨400, Body.msg "Atleast one image is required", store, []⟩
  else
    match techStackRaw with
    | none => ⟨500, Body.msg "Server error", store, []⟩
    | some ts =>
      let post : Post :=
        { pid := newId
          user := userId
          title := title
          description := description
          images := files
          liveDemo := liveDemo
          sourceCode := if sourceCode == "" then none else some sourceCode
          techStack := ts
          likes := []
          saves := []
          comments := []
          views := 0
          createdAt := now }
      ⟨201, Body.post post, store ++ [post], []⟩

/-- GET `/api/posts` (all posts, paginated). The claims only exercise
page and limit values that are at least 1, where `Int.toNat` is exact. -/
def getPostsRoute (store : List Post) (pageQ limitQ : Option Int) : RouteResult :=
  let page := jsOr pageQ 1
  let limit := jsOr limitQ 12
  let startIndex := (page - 1) * limit
  let endIndex := page * limit
  let total : Int := store.length
  let posts := ((sortByCreatedAtDesc store).drop startIndex.toNat).take limit.toNat
  let next : Option Int := if endIndex < total then some (page + 1) else none
  ⟨200, Body.page posts next, store, []⟩

/-- GET `/api/posts/feed`: posts of followed users, paginated by the same
arithmetic. A missing `Follower` document makes `user.following` throw,
answered with 500 by the catch-all. -/
def feedRoute (store : List Post) (followerStore : List FollowerDoc)
    (userId : String) (pageQ limitQ : Option Int) : RouteResult :=
  match followerStore.find? (fun f => f.user == userId) with
  | none => ⟨500, Body.msg "Server error", store, []⟩
  | some fdoc =>
    let page := jsOr pageQ 1
    let limit := jsOr limitQ 12
    let startIndex := (page - 1) * limit
    let endIndex := page * limit
    let followingUsers := fdoc.following.map (fun f => f.user)
    let matching := store.filter (fun p => followingUsers.contains p.user)
    let total : Int := matching.length
    let posts := ((sortByCreatedAtDesc matching).drop startIndex.toNat).take limit.toNat
    let next : Option Int := if endIndex < total then some (page + 1) else none
    ⟨200, Body.page posts next, store, []⟩

/-- GET `/api/posts/:postId`: fetch one post, incrementing and persisting
its `views` counter. -/
def getPostRoute (store : List Post) (postId : String) : RouteResult :=
  match findById store postId with
  | none => ⟨404, Body.msg "Post not found", store, []⟩
  | some post =>
    let post2 := { post with views := post.views + 1 }
    ⟨200, Body.post post2, savePost store post2, []⟩

/-- DELETE `/api/posts/:postId`. A missing `User` document makes
`user.role` throw, answered with 500 by the catch-all. -/
def deletePostRoute (store : List Post) (users : List UserDoc)
    (postId userId : String) : RouteResult :=
  match findById store postId with
  | none => ⟨404, Body.msg "Post not found", store, []⟩
  | some post =>
    match findUser users userId with
    | none => ⟨500, Body.msg "Server error", store, []⟩
    | some u =>
      if post.user == userId || u.role == "root" then
        ⟨200, Body.msg "Post deleted", removePost store post.pid, []⟩
      else
        ⟨401, Body.msg "You are not authorized to delete this post", store, []⟩

/-- The scan-and-splice toggle both `/like/:postId` and `/save/:postId`
perform on their embedded array: splice out the entry at the first index
whose `user` matches, or unshift a fresh `{ user }` entry. -/
def toggleEntry (entries : List LikeEntry) (userId : String) : List LikeEntry :=
  if (entries.filter (fun e => e.user == userId)).length > 0 then
    entries.eraseIdx (entries.findIdx (fun e => e.user == userId))
  else
    { user := userId } :: entries

/-- PUT `/api/posts/like/:postId` (like or unlike). -/
def likeRoute (store : List Post) (postId userId : String) : RouteResult :=
  match findById store postId with
  | none => ⟨404, Body.msg "Post not found", store, []⟩
  | some post =>
    let isLiked := (post.likes.filter (fun l => l.user == userId)).length > 0
    if isLiked then
      let index := post.likes.findIdx (fun l => l.user == userId)
      let post2 := { post with likes := post.likes.eraseIdx index }
      let notifs :=
        if post2.user == userId then []
        else [NotifCall.removeLike post2.user userId postId]
      ⟨200, Body.post post2, savePost store post2, notifs⟩
    else
      let post2 := { post with likes := { user := userId } :: post.likes }
      let notifs :=
        if post2.user == userId then []
        else [NotifCall.newLike post2.user userId postId]
      ⟨200, Body.post post2, savePost store post2, notifs⟩

/-- PUT `/api/posts/save/:postId` (save or unsave); same toggle on the
`saves` array, without notifications. -/
def saveRoute (store : List Post) (postId userId : String) : RouteResult :=
  match findById store postId with
  | none => ⟨404, Body.msg "Post not found", store, []⟩
  | some post =>
    let isSaved := (post.saves.filter (fun s => s.user == userId)).length > 0
    if isSaved then
      let index := post.saves.findIdx (fun s => s.user == userId)
      let post2 := { post with saves := post.saves.eraseIdx index }
      ⟨200, Body.post post2, savePost store post2, []⟩
    else
      let post2 := { post with saves := { user := userId } :: post.saves }
      ⟨200, Body.post post2, savePost store post2, []⟩

/-- GET `/api/posts/like/:postId` (likes of a post). -/
def getLikesRoute (store : List Post) (postId : String) : RouteResult :=
  match findById store postId with
  | none => ⟨404, Body.msg "Post not found", store, []⟩
  | some post => ⟨200, Body.likes post.likes, store, []⟩

/-- POST `/api/posts/comment/:postId` (add a comment). `newId` models
the generated uuid, `now` models `Date.now()`. -/
def addCommentRoute (store : List Post) (postId userId text : String)
    (newId : String) (now : Nat) : RouteResult :=
  if text.length < 1 then
    ⟨400, Body.msg "Comment must be atleast 1 character long", store, []⟩
  else
    match findById store postId with
    | none => ⟨404, Body.msg "Post not found", store, []⟩
    | some post =>
      let comment : CommentDoc :=
        { cid := newId, user := userId, text := text, date := now }
      let post2 := { post with comments := comment :: post.comments }
      let notifs :=
        if post2.user == userId then []
        else [NotifCall.newComment post2.user userId postId newId text]
      ⟨201, Body.comments post2.comments, savePost store post2, notifs⟩

/-- DELETE `/api/posts/comment/:postId/:commentId` (delete a comment). -/
def deleteCommentRoute (store : List Post) (users : List UserDoc)
    (postId commentId userId : String) : RouteResult :=
  match findById store postId with
  | none => ⟨404, Body.msg "Post not found", store, []⟩
  | some post =>
    match post.comments.find? (fun c => c.cid == commentId) with
    | none => ⟨404, Body.msg "Comment not found", store, []⟩
    | some comment =>
      match findUser users userId with
      | none => ⟨500, Body.msg "Server error", store, []⟩
      | some u =>
        if comment.user == userId || u.role == "root" then
          let index := post.comments.findIdx (fun c => c.cid == commentId)
          let post2 := { post with comments := post.comments.eraseIdx index }
          let notifs :=
            if post2.user == userId then []
            else [NotifCall.removeComment post2.user userId postId comment.cid]
          ⟨200, Body.comments post2.comments, savePost store post2, notifs⟩
        else
          ⟨401, Body.msg "You are not authorized to delete this comment", store, []⟩

/-! Helper lemmas about the embedded operations. -/

lemma likeEntry_eta (e : LikeEntry) : e = ⟨e.user⟩ := rfl

lemma toggleEntry_of_absent {l : List LikeEntry} {u : String}
    (h : ∀ e ∈ l, e.user ≠ u) : toggleEntry l u = ⟨u⟩ :: l := by
  unfold toggleEntry
  rw [if_neg]
  intro hpos
  have hne : l.filter (fun e => e.user == u) ≠ [] :=
    List.ne_nil_of_length_pos hpos
  obtain ⟨e, he⟩ := List.exists_mem_of_ne_nil _ hne
  have := List.mem_filter.mp he
  exact h e this.1 (by simpa using this.2)

lemma toggleEntry_of_present {l : List LikeEntry} {u : String}
    (h : ∃ e ∈ l, e.user = u) :
    toggleEntry l u = l.eraseIdx (l.findIdx (fun e => e.user == u)) := by
  unfold toggleEntry
  rw [if_pos]
  obtain ⟨e, he, heq⟩ := h
  have : e ∈ l.filter (fun e => e.user == u) :=
    List.mem_filter.mpr ⟨he, by simp [heq]⟩
  exact List.length_pos.mpr (List.ne_nil_of_mem this)

lemma false_of_mem_take_findIdx {α : Type} {p : α → Bool} :
    ∀ {l : List α} {x : α}, x ∈ l.take (l.findIdx p) → p x = false := by
  intro l
  induction l with
  | nil => simp
  | cons a t ih =>
    intro x hx
    rw [List.findIdx_cons] at hx
    cases hpa : p a with
    | true => simp [hpa] at hx
    | false =>
      rw [hpa] at hx
      simp only [cond_false, List.take_succ_cons, List.mem_cons] at hx
      rcases hx with rfl | hx
      · exact hpa
      · exact ih hx

lemma eraseIdx_findIdx_split {α : Type} {p : α → Bool} {l : List α}
    (h : ∃ x ∈ l, p x) :
    ∃ pre e suf, l = pre ++ e :: suf ∧ p e ∧ (∀ x ∈ pre, p x = false) ∧
      l.eraseIdx (l.findIdx p) = pre ++ suf := by
  have hlt : l.findIdx p < l.length := List.findIdx_lt_length_of_exists h
  refine ⟨l.take (l.findIdx p), l[l.findIdx p], l.drop (l.findIdx p + 1),
    ?_, ?_, ?_, ?_⟩
  · rw [List.getElem_cons_drop l (l.findIdx p) hlt,
      List.take_append_drop]
  · exact List.findIdx_of_getElem?_eq_some (List.getElem?_eq_getElem hlt)
  · intro x hx
    exact false_of_mem_take_findIdx hx
  · exact List.eraseIdx_eq_take_drop_succ l _

lemma cons_getElem_eraseIdx_perm {α : Type} (l : List α) (i : Nat)
    (h : i < l.length) : List.Perm (l[i] :: l.eraseIdx i) l := by
  rw [List.eraseIdx_eq_take_drop_succ]
  have h1 : List.Perm (l[i] :: (l.take i ++ l.drop (i + 1)))
      (l.take i ++ l[i] :: l.drop (i + 1)) := List.perm_middle.symm
  have h2 : l.take i ++ l[i] :: l.drop (i + 1) = l := by
    rw [List.getElem_cons_drop l i h, List.take_append_drop]
  rw [h2] at h1
  exact h1

lemma toggleEntry_toggleEntry_perm (l : List LikeEntry) (u : String)
    (h : (l.map LikeEntry.user).Nodup) :
    List.Perm (toggleEntry (toggleEntry l u) u) l := by
  by_cases hmem : ∃ e ∈ l, e.user = u
  · have hex : ∃ e ∈ l, (fun e : LikeEntry => e.user == u) e := by
      obtain ⟨e, he, heq⟩ := hmem
      exact ⟨e, he, by simp [heq]⟩
    have hlt : l.findIdx (fun e => e.user == u) < l.length :=
      List.findIdx_lt_length_of_exists hex
    have h1 : toggleEntry l u =
        l.eraseIdx (l.findIdx (fun e => e.user == u)) :=
      toggleEntry_of_present hmem
    have hperm : List.Perm
        (l[l.findIdx (fun e => e.user == u)] ::
          l.eraseIdx (l.findIdx (fun e => e.user == u))) l :=
      cons_getElem_eraseIdx_perm l _ hlt
    have huser : (l[l.findIdx (fun e => e.user == u)]).user = u := by
      have := List.findIdx_of_getElem?_eq_some
        (List.getElem?_eq_getElem hlt)
      simpa using this
    have habs : ∀ e ∈ l.eraseIdx (l.findIdx (fun e => e.user == u)),
        e.user ≠ u := by
      have hn : ((l[l.findIdx (fun e => e.user == u)] ::
          l.eraseIdx (l.findIdx (fun e => e.user == u))).map
            LikeEntry.user).Nodup :=
        ((hperm.map LikeEntry.user).nodup_iff).mpr h
      rw [List.map_cons, List.nodup_cons, huser] at hn
      intro e he heq
      apply hn.1
      have hin : e.user ∈ (l.eraseIdx
          (l.findIdx (fun e => e.user == u))).map LikeEntry.user :=
        List.mem_map_of_mem _ he
      rwa [heq] at hin
    have h2 : toggleEntry
        (l.eraseIdx (l.findIdx (fun e => e.user == u))) u =
        ⟨u⟩ :: l.eraseIdx (l.findIdx (fun e => e.user == u)) :=
      toggleEntry_of_absent habs
    rw [h1, h2]
    have h3 := likeEntry_eta (l[l.findIdx (fun e => e.user == u)])
    rw [huser] at h3
    rw [← h3]
    exact hperm
  · push_neg at hmem
    rw [toggleEntry_of_absent hmem]
    rw [toggleEntry_of_present ⟨⟨u⟩, List.mem_cons_self _ _, rfl⟩]
    simp [List.findIdx_cons]

lemma toggleEntry_nodup (l : List LikeEntry) (u : String)
    (h : (l.map LikeEntry.user).Nodup) :
    ((toggleEntry l u).map LikeEntry.user).Nodup := by
  by_cases hmem : ∃ e ∈ l, e.user = u
  · rw [toggleEntry_of_present hmem]
    exact h.sublist (List.Sublist.map _ (List.eraseIdx_sublist _ _))
  · push_neg at hmem
    rw [toggleEntry_of_absent hmem]
    rw [List.map_cons, List.nodup_cons]
    refine ⟨?_, h⟩
    intro hu
    obtain ⟨e, he, heq⟩ := List.mem_map.mp hu
    exact hmem e he heq

lemma findById_pid {store : List Post} {pid : String} {post : Post}
    (h : findById store pid = some post) : post.pid = pid := by
  have := List.find?_some h
  simpa using this

lemma findById_mem {store : List Post} {pid : String} {post : Post}
    (h : findById store pid = some post) : post ∈ store :=
  List.mem_of_find?_eq_some h

lemma findById_savePost :
    ∀ (store : List Post) {pid : String} {post : Post},
      findById store pid = some post → ∀ (p2 : Post), p2.pid = post.pid →
      findById (savePost store p2) pid = some p2 := by
  intro store
  induction store with
  | nil => intro pid post h; simp [findById] at h
  | cons q t ih =>
    intro pid post h p2 hid
    have hp2 : p2.pid = pid := by rw [hid, findById_pid h]
    by_cases hq : q.pid = pid
    · show findById (savePost (q :: t) p2) pid = some p2
      rw [savePost, List.map_cons]
      have hhead : (if q.pid == p2.pid then p2 else q) = p2 :=
        if_pos (by simp [hq, hp2])
      rw [hhead, findById, List.find?_cons_of_pos _ (by simp [hp2])]
    · have ht : findById t pid = some post := by
        rw [findById, List.find?_cons_of_neg _ (by simp [hq])] at h
        exact h
      show findById (savePost (q :: t) p2) pid = some p2
      rw [savePost, List.map_cons]
      have hhead : (if q.pid == p2.pid then p2 else q) = q :=
        if_neg (by simp [hq, hp2])
      rw [hhead, findById, List.find?_cons_of_neg _ (by simp [hq])]
      exact ih ht p2 hid

lemma likeRoute_spec {store : List Post} {postId userId : String}
    {post : Post} (h : findById store postId = some post) :
    likeRoute store postId userId =
      ⟨200, Body.post { post with likes := toggleEntry post.likes userId },
        savePost store { post with likes := toggleEntry post.likes userId },
        if (post.likes.filter (fun e => e.user == userId)).length > 0 then
          (if post.user = userId then []
            else [NotifCall.removeLike post.user userId postId])
        else
          (if post.user = userId then []
            else [NotifCall.newLike post.user userId postId])⟩ := by
  by_cases hc : (post.likes.filter (fun e => e.user == userId)).length > 0
  · simp only [likeRoute, toggleEntry, h, if_pos hc]
    by_cases hu : post.user = userId <;> simp [hu]
  · simp only [likeRoute, toggleEntry, h, if_neg hc]
    by_cases hu : post.user = userId <;> simp [hu]

lemma saveRoute_spec {store : List Post} {postId userId : String}
    {post : Post} (h : findById store postId = some post) :
    saveRoute store postId userId =
      ⟨200, Body.post { post with saves := toggleEntry post.saves userId },
        savePost store { post with saves := toggleEntry post.saves userId },
        []⟩ := by
  by_cases hc : (post.saves.filter (fun e => e.user == userId)).length > 0
  · simp only [saveRoute, toggleEntry, h, if_pos hc]
  · simp only [saveRoute, toggleEntry, h, if_neg hc]

lemma findById_removePost_of_nodup :
    ∀ (store : List Post) (pid : String),
      (store.map Post.pid).Nodup →
      findById (removePost store pid) pid = none := by
  intro store
  induction store with
  | nil => intro pid _; rfl
  | cons q t ih =>
    intro pid h
    rw [List.map_cons, List.nodup_cons] at h
    by_cases hq : q.pid = pid
    · rw [removePost, List.eraseP_cons_of_pos (by simp [hq])]
      rw [findById, List.find?_eq_none]
      intro x hx
      simp only [beq_iff_eq]
      intro hxe
      apply h.1
      have hmap : x.pid ∈ t.map Post.pid := List.mem_map_of_mem _ hx
      rwa [hxe, ← hq] at hmap
    · rw [removePost, List.eraseP_cons_of_neg (by simp [hq])]
      rw [findById, List.find?_cons_of_neg _ (by simp [hq])]
      exact ih pid h.2

lemma length_removePost {store : List Post} {pid : String} {post : Post}
    (h : findById store pid = some post) :
    (removePost store pid).length + 1 = store.length := by
  have hmem : post ∈ store := findById_mem h
  have hpid : post.pid = pid := findById_pid h
  have hlen := @List.length_eraseP_of_mem Post store post
    (fun q : Post => q.pid == pid) hmem (by simp [hpid])
  rw [removePost, hlen]
  have : 1 ≤ store.length := List.length_pos.mpr (List.ne_nil_of_mem hmem)
  omega

/-! Sample documents used by the concrete witnesses and counterexamples. -/

/-- A sample post: owned by `owner`, liked by `ua` and `ub`, saved by
`ua`, with one comment written by `ua`. -/
def samplePost : Post :=
  { pid := "p1", user := "owner", title := "t", description := "d",
    images := ["img"], liveDemo := "url", sourceCode := none,
    techStack := ["js"], likes := [⟨"ua"⟩, ⟨"ub"⟩], saves := [⟨"ua"⟩],
    comments := [⟨"c1", "ua", "hi", 0⟩], views := 3, createdAt := 5 }

/-- A one-post store. -/
def sampleStore : List Post := [samplePost]

/-- Sample users: the post owner and the commenter are plain users,
`ru` has the `root` role. -/
def sampleUsers : List UserDoc :=
  [⟨"owner", "user"⟩, ⟨"ua", "user"⟩, ⟨"ru", "root"⟩]

/-! Claim theorems. -/

/-- C2: for every existing post and requesting user, PUT
`/api/posts/like/:postId` toggles by a linear scan of the embedded
`likes` array: if an entry with the user's id is present, the entry at
the first matching index is spliced out; otherwise a new entry for that
user is inserted at the front; in both cases the route responds 200 with
the updated post. PUT `/api/posts/save/:postId` behaves identically on
the `saves` array. -/
theorem likeSaveToggle_scan_splice (store : List Post)
    (postId userId : String) (post : Post)
    (h : findById store postId = some post) :
    ((likeRoute store postId userId).status = 200 ∧
      ∃ p2 : Post,
        (likeRoute store postId userId).body = Body.post p2 ∧
        (likeRoute store postId userId).store = savePost store p2 ∧
        p2.saves = post.saves ∧ p2.comments = post.comments ∧
        ((∃ e ∈ post.likes, e.user = userId) →
          ∃ pre e suf, post.likes = pre ++ e :: suf ∧ e.user = userId ∧
            (∀ x ∈ pre, x.user ≠ userId) ∧ p2.likes = pre ++ suf) ∧
        ((∀ e ∈ post.likes, e.user ≠ userId) →
          p2.likes = ⟨userId⟩ :: post.likes)) ∧
    ((saveRoute store postId userId).status = 200 ∧
      ∃ p2 : Post,
        (saveRoute store postId userId).body = Body.post p2 ∧
        (saveRoute store postId userId).store = savePost store p2 ∧
        p2.likes = post.likes ∧ p2.comments = post.comments ∧
        ((∃ e ∈ post.saves, e.user = userId) →
          ∃ pre e suf, post.saves = pre ++ e :: suf ∧ e.user = userId ∧
            (∀ x ∈ pre, x.user ≠ userId) ∧ p2.saves = pre ++ suf) ∧
        ((∀ e ∈ post.saves, e.user ≠ userId) →
          p2.saves = ⟨userId⟩ :: post.saves)) := by
  constructor
  · rw [likeRoute_spec h]
    refine ⟨rfl, { post with likes := toggleEntry post.likes userId },
      rfl, rfl, rfl, rfl, ?_, ?_⟩
    · intro hmem
      have hex : ∃ e ∈ post.likes,
          (fun e : LikeEntry => e.user == userId) e := by
        obtain ⟨e, he, heq⟩ := hmem
        exact ⟨e, he, by simp [heq]⟩
      obtain ⟨pre, e, suf, hsplit, hpe, hpre, herase⟩ :=
        eraseIdx_findIdx_split hex
      refine ⟨pre, e, suf, hsplit, by simpa using hpe, ?_, ?_⟩
      · intro x hx
        have := hpre x hx
        simpa using this
      · show toggleEntry post.likes userId = pre ++ suf
        rw [toggleEntry_of_present hmem]
        exact herase
    · intro habs
      show toggleEntry post.likes userId = ⟨userId⟩ :: post.likes
      exact toggleEntry_of_absent habs
  · rw [saveRoute_spec h]
    refine ⟨rfl, { post with saves := toggleEntry post.saves userId },
      rfl, rfl, rfl, rfl, ?_, ?_⟩
    · intro hmem
      have hex : ∃ e ∈ post.saves,
          (fun e : LikeEntry => e.user == userId) e := by
        obtain ⟨e, he, heq⟩ := hmem
        exact ⟨e, he, by simp [heq]⟩
      obtain ⟨pre, e, suf, hsplit, hpe, hpre, herase⟩ :=
        eraseIdx_findIdx_split hex
      refine ⟨pre, e, suf, hsplit, by simpa using hpe, ?_, ?_⟩
      · intro x hx
        have := hpre x hx
        simpa using this
      · show toggleEntry post.saves userId = pre ++ suf
        rw [toggleEntry_of_present hmem]
        exact herase
    · intro habs
      show toggleEntry post.saves userId = ⟨userId⟩ :: post.saves
      exact toggleEntry_of_absent habs

/-- C2 witness: the toggle theorem applied to the sample store. -/
theorem likeSaveToggle_scan_splice_witness :
    (likeRoute sampleStore "p1" "ua").status = 200 ∧
    (saveRoute sampleStore "p1" "ua").status = 200 := by
  have h := likeSaveToggle_scan_splice sampleStore "p1" "ua" samplePost
    (by decide)
  exact ⟨h.1.1, h.2.1⟩

/-- C3 counterexample: the sample post is liked by `ua` then `ub`, the
`likes` user ids are pairwise distinct, yet toggling `ub` twice leaves
`[ub, ua]`, not the original `[ua, ub]`: the spliced entry is
re-inserted at the front, not at its old index. -/
theorem likeToggle_twice_not_involution :
    (samplePost.likes.map LikeEntry.user).Nodup ∧
    findById sampleStore "p1" = some samplePost ∧
    (findById (likeRoute (likeRoute sampleStore "p1" "ub").store
        "p1" "ub").store "p1").map Post.likes ≠ some samplePost.likes := by
  refine ⟨by decide, by decide, by decide⟩

/-- C3 as amended: for every post whose `likes` (resp. `saves`) array
contains at most one entry per user id, applying the like-toggle
(resp. save-toggle) twice for the same user yields an array that is a
permutation of the original one — equality fails only because the
re-inserted entry moves to the front. -/
theorem likeSaveToggle_twice_perm (store : List Post)
    (postId userId : String) (post : Post)
    (h : findById store postId = some post)
    (hL : (post.likes.map LikeEntry.user).Nodup)
    (hS : (post.saves.map LikeEntry.user).Nodup) :
    (∃ p2 : Post,
      findById (likeRoute (likeRoute store postId userId).store
        postId userId).store postId = some p2 ∧
      List.Perm p2.likes post.likes ∧ p2.saves = post.saves ∧
      p2.comments = post.comments) ∧
    (∃ p2 : Post,
      findById (saveRoute (saveRoute store postId userId).store
        postId userId).store postId = some p2 ∧
      List.Perm p2.saves post.saves ∧ p2.likes = post.likes ∧
      p2.comments = post.comments) := by
  constructor
  · have e1 : (likeRoute store postId userId).store =
        savePost store { post with likes := toggleEntry post.likes userId } := by
      rw [likeRoute_spec h]
    have hfind1 : findById
        (savePost store { post with likes := toggleEntry post.likes userId })
        postId = some { post with likes := toggleEntry post.likes userId } :=
      findById_savePost store h _ rfl
    have e2 : (likeRoute
        (savePost store { post with likes := toggleEntry post.likes userId })
        postId userId).store =
        savePost
          (savePost store { post with likes := toggleEntry post.likes userId })
          { post with
              likes := toggleEntry (toggleEntry post.likes userId) userId } := by
      rw [likeRoute_spec hfind1]
    refine ⟨{ post with
        likes := toggleEntry (toggleEntry post.likes userId) userId },
      ?_, ?_, rfl, rfl⟩
    · rw [e1, e2]
      exact findById_savePost _ hfind1 _ rfl
    · exact toggleEntry_toggleEntry_perm post.likes userId hL
  · have e1 : (saveRoute store postId userId).store =
        savePost store { post with saves := toggleEntry post.saves userId } := by
      rw [saveRoute_spec h]
    have hfind1 : findById
        (savePost store { post with saves := toggleEntry post.saves userId })
        postId = some { post with saves := toggleEntry post.saves userId } :=
      findById_savePost store h _ rfl
    have e2 : (saveRoute
        (savePost store { post with saves := toggleEntry post.saves userId })
        postId userId).store =
        savePost
          (savePost store { post with saves := toggleEntry post.saves userId })
          { post with
              saves := toggleEntry (toggleEntry post.saves userId) userId } := by
      rw [saveRoute_spec hfind1]
    refine ⟨{ post with
        saves := toggleEntry (toggleEntry post.saves userId) userId },
      ?_, ?_, rfl, rfl⟩
    · rw [e1, e2]
      exact findById_savePost _ hfind1 _ rfl
    · exact toggleEntry_toggleEntry_perm post.saves userId hS

/-- C3 witness: the amended round-trip theorem applied to the sample
store. -/
theorem likeSaveToggle_twice_perm_witness :
    ∃ p2 : Post,
      findById (likeRoute (likeRoute sampleStore "p1" "ub").store
        "p1" "ub").store "p1" = some p2 ∧
      List.Perm p2.likes samplePost.likes ∧ p2.saves = samplePost.saves ∧
      p2.comments = samplePost.comments :=
  (likeSaveToggle_twice_perm sampleStore "p1" "ub" samplePost
    (by decide) (by decide) (by decide)).1

/-- C4: uniqueness-by-user-id is an invariant of the embedded `likes`
and `saves` arrays: if each user id occurs at most once before a
like-toggle or save-toggle, each user id occurs at most once after it. -/
theorem toggle_uniqueness_invariant (store : List Post)
    (postId userId : String) (post : Post)
    (h : findById store postId = some post)
    (hL : ∀ v : String, (post.likes.map LikeEntry.user).count v ≤ 1)
    (hS : ∀ v : String, (post.saves.map LikeEntry.user).count v ≤ 1) :
    (∃ p2 : Post,
      findById (likeRoute store postId userId).store postId = some p2 ∧
      (∀ v : String, (p2.likes.map LikeEntry.user).count v ≤ 1) ∧
      (∀ v : String, (p2.saves.map LikeEntry.user).count v ≤ 1)) ∧
    (∃ p2 : Post,
      findById (saveRoute store postId userId).store postId = some p2 ∧
      (∀ v : String, (p2.likes.map LikeEntry.user).count v ≤ 1) ∧
      (∀ v : String, (p2.saves.map LikeEntry.user).count v ≤ 1)) := by
  have hLn : (post.likes.map LikeEntry.user).Nodup :=
    List.nodup_iff_count_le_one.mpr hL
  have hSn : (post.saves.map LikeEntry.user).Nodup :=
    List.nodup_iff_count_le_one.mpr hS
  constructor
  · have e1 : (likeRoute store postId userId).store =
        savePost store { post with likes := toggleEntry post.likes userId } := by
      rw [likeRoute_spec h]
    refine ⟨{ post with likes := toggleEntry post.likes userId }, ?_, ?_, ?_⟩
    · rw [e1]
      exact findById_savePost store h _ rfl
    · exact List.nodup_iff_count_le_one.mp
        (toggleEntry_nodup post.likes userId hLn)
    · exact hS
  · have e1 : (saveRoute store postId userId).store =
        savePost store { post with saves := toggleEntry post.saves userId } := by
      rw [saveRoute_spec h]
    refine ⟨{ post with saves := toggleEntry post.saves userId }, ?_, ?_, ?_⟩
    · rw [e1]
      exact findById_savePost store h _ rfl
    · exact hL
    · exact List.nodup_iff_count_le_one.mp
        (toggleEntry_nodup post.saves userId hSn)

/-- C4 witness: the invariant theorem applied to the sample store. -/
theorem toggle_uniqueness_invariant_witness :
    ∃ p2 : Post,
      findById (likeRoute sampleStore "p1" "ub").store "p1" = some p2 ∧
      (∀ v : String, (p2.likes.map LikeEntry.user).count v ≤ 1) ∧
      (∀ v : String, (p2.saves.map LikeEntry.user).count v ≤ 1) :=
  (toggle_uniqueness_invariant sampleStore "p1" "ub" samplePost
    (by decide) (List.nodup_iff_count_le_one.mp (by decide))
    (List.nodup_iff_count_le_one.mp (by decide))).1

/-- C1 counterexample: in the sample store the post and the comment
exist, the post's owner `owner` is the requester (so the claim's
ownership check `post.user = req.userId` holds) — yet the route answers
401 and leaves the store unchanged, because the code checks the
comment's author, not the post's owner. -/
theorem deleteComment_post_owner_denied :
    (findById sampleStore "p1").map Post.user = some "owner" ∧
    (findById sampleStore "p1").map
      (fun p => p.comments.map CommentDoc.user) = some ["ua"] ∧
    (findUser sampleUsers "owner").map UserDoc.role = some "user" ∧
    (deleteCommentRoute sampleStore sampleUsers "p1" "c1" "owner").status
      = 401 ∧
    (deleteCommentRoute sampleStore sampleUsers "p1" "c1" "owner").store
      = sampleStore :=
  ⟨by decide, by decide, by decide, by decide, by decide⟩

/-- C1 as amended: when the post and the comment exist, deletion is
permitted exactly when the comment's author equals `req.userId` or the
requesting user's role is `root`; otherwise the route responds 401 and
the comments array is unchanged. -/
theorem deleteComment_authorization (store : List Post)
    (users : List UserDoc) (postId commentId userId : String)
    (post : Post) (comment : CommentDoc) (u : UserDoc)
    (hpost : findById store postId = some post)
    (hcomment : post.comments.find? (fun c => c.cid == commentId)
      = some comment)
    (huser : findUser users userId = some u) :
    ((comment.user = userId ∨ u.role = "root") →
      (deleteCommentRoute store users postId commentId userId).status
        = 200 ∧
      (deleteCommentRoute store users postId commentId userId).body =
        Body.comments (post.comments.eraseIdx
          (post.comments.findIdx (fun c => c.cid == commentId)))) ∧
    (comment.user ≠ userId ∧ u.role ≠ "root" →
      deleteCommentRoute store users postId commentId userId =
        ⟨401, Body.msg "You are not authorized to delete this comment",
          store, []⟩) := by
  constructor
  · intro hauth
    have hcond : (comment.user == userId || u.role == "root") = true := by
      rcases hauth with h1 | h1 <;> simp [h1]
    constructor <;>
      simp [deleteCommentRoute, hpost, hcomment, huser, hcond]
  · intro hne
    have hcond : (comment.user == userId || u.role == "root") = false := by
      simp [hne.1, hne.2]
    simp [deleteCommentRoute, hpost, hcomment, huser, hcond]

/-- C1 witness: the comment's author may delete their comment on someone
else's post. -/
theorem deleteComment_authorization_witness :
    (deleteCommentRoute sampleStore sampleUsers "p1" "c1" "ua").status
      = 200 :=
  ((deleteComment_authorization sampleStore sampleUsers "p1" "c1" "ua"
    samplePost ⟨"c1", "ua", "hi", 0⟩ ⟨"ua", "user"⟩
    (by decide) (by decide) (by decide)).1 (Or.inl rfl)).1

/-- C6 counterexample: with an empty store (the post does not exist) and
an empty comment text, POST `/api/posts/comment/:postId` responds 400,
not 404: the length validation runs before the existence check. -/
theorem missingPost_comment_400_not_404 :
    findById ([] : List Post) "p1" = none ∧
    (addCommentRoute [] "p1" "u1" "" "c1" 0).status = 400 ∧
    ¬((addCommentRoute [] "p1" "u1" "" "c1" 0).status = 404) :=
  ⟨rfl, rfl, by decide⟩

/-- C6 as amended: every `:postId` route responds 404 with message
`Post not found` when the post does not exist and leaves the store
untouched — except POST `/comment/:postId` with a text shorter than one
character, which responds 400 before the existence check, also leaving
the store untouched. -/
theorem missingPost_responds_404 (store : List Post)
    (users : List UserDoc) (postId commentId userId text newId : String)
    (now : Nat) (h : findById store postId = none)
    (htext : 1 ≤ text.length) :
    getPostRoute store postId =
      ⟨404, Body.msg "Post not found", store, []⟩ ∧
    deletePostRoute store users postId userId =
      ⟨404, Body.msg "Post not found", store, []⟩ ∧
    likeRoute store postId userId =
      ⟨404, Body.msg "Post not found", store, []⟩ ∧
    saveRoute store postId userId =
      ⟨404, Body.msg "Post not found", store, []⟩ ∧
    getLikesRoute store postId =
      ⟨404, Body.msg "Post not found", store, []⟩ ∧
    addCommentRoute store postId userId text newId now =
      ⟨404, Body.msg "Post not found", store, []⟩ ∧
    deleteCommentRoute store users postId commentId userId =
      ⟨404, Body.msg "Post not found", store, []⟩ ∧
    (∀ t : String, t.length < 1 →
      addCommentRoute store postId userId t newId now =
        ⟨400, Body.msg "Comment must be atleast 1 character long",
          store, []⟩) := by
  have hnlt : ¬(text.length < 1) := by omega
  refine ⟨by simp [getPostRoute, h], by simp [deletePostRoute, h],
    by simp [likeRoute, h], by simp [saveRoute, h],
    by simp [getLikesRoute, h], ?_, by simp [deleteCommentRoute, h], ?_⟩
  · simp [addCommentRoute, h, hnlt]
  · intro t ht
    simp [addCommentRoute, ht]

/-- C6 witness: the 404 theorem applied to the empty store. -/
theorem missingPost_responds_404_witness :
    likeRoute [] "p1" "u1" = ⟨404, Body.msg "Post not found", [], []⟩ :=
  (missingPost_responds_404 [] [] "p1" "c1" "u1" "x" "n1" 0 rfl
    (by decide)).2.2.1

/-- C7: POST `/api/posts` with fewer than one uploaded file responds 400
with `Atleast one image is required` and creates no post, and POST
`/api/posts/comment/:postId` with a text of length less than 1 responds
400 with `Comment must be atleast 1 character long` and adds no
comment; in both cases the store is unchanged. -/
theorem validation_400_no_write (store : List Post)
    (userId title description liveDemo sourceCode postId text newId :
      String)
    (tsRaw : Option (List String)) (files : List String) (now : Nat)
    (hfiles : files.length < 1) (htext : text.length < 1) :
    createPostRoute store userId title description liveDemo sourceCode
        tsRaw files newId now =
      ⟨400, Body.msg "Atleast one image is required", store, []⟩ ∧
    addCommentRoute store postId userId text newId now =
      ⟨400, Body.msg "Comment must be atleast 1 character long",
        store, []⟩ :=
  ⟨by simp [createPostRoute, hfiles], by simp [addCommentRoute, htext]⟩

/-- C7 witness: the validation theorem applied to concrete invalid
requests. -/
theorem validation_400_no_write_witness :
    createPostRoute sampleStore "u1" "t" "d" "l" "" (some []) [] "n1" 0 =
      ⟨400, Body.msg "Atleast one image is required", sampleStore, []⟩ ∧
    addCommentRoute sampleStore "p1" "u1" "" "n1" 0 =
      ⟨400, Body.msg "Comment must be atleast 1 character long",
        sampleStore, []⟩ :=
  validation_400_no_write sampleStore "u1" "t" "d" "l" "" "p1" "" "n1"
    (some []) [] 0 (by decide) (by decide)

/-- C8: for every existing post, DELETE `/api/posts/:postId` removes the
post and responds 200 exactly when the requesting user is the post's
owner or has role `root`; any other authenticated requester gets 401 and
the post remains in the store unchanged. -/
theorem deletePost_authorization (store : List Post)
    (users : List UserDoc) (postId userId : String)
    (post : Post) (u : UserDoc)
    (hpost : findById store postId = some post)
    (huser : findUser users userId = some u)
    (hids : (store.map Post.pid).Nodup) :
    ((post.user = userId ∨ u.role = "root") →
      deletePostRoute store users postId userId =
        ⟨200, Body.msg "Post deleted", removePost store post.pid, []⟩ ∧
      findById (removePost store post.pid) postId = none ∧
      (removePost store post.pid).length + 1 = store.length) ∧
    (post.user ≠ userId ∧ u.role ≠ "root" →
      deletePostRoute store users postId userId =
        ⟨401, Body.msg "You are not authorized to delete this post",
          store, []⟩) := by
  have hpid : post.pid = postId := findById_pid hpost
  constructor
  · intro hauth
    have hcond : (post.user == userId || u.role == "root") = true := by
      rcases hauth with h1 | h1 <;> simp [h1]
    refine ⟨by simp [deletePostRoute, hpost, huser, hcond], ?_, ?_⟩
    · rw [hpid]
      exact findById_removePost_of_nodup store postId hids
    · rw [hpid]
      exact length_removePost hpost
  · intro hne
    have hcond : (post.user == userId || u.role == "root") = false := by
      simp [hne.1, hne.2]
    simp [deletePostRoute, hpost, huser, hcond]

/-- C8 witness: a root user deletes a post they do not own. -/
theorem deletePost_authorization_witness :
    deletePostRoute sampleStore sampleUsers "p1" "ru" =
      ⟨200, Body.msg "Post deleted", removePost sampleStore "p1", []⟩ ∧
    findById (removePost sampleStore "p1") "p1" = none := by
  have h := (deletePost_authorization sampleStore sampleUsers "p1" "ru"
    samplePost ⟨"ru", "root"⟩ (by decide) (by decide) (by decide)).1
    (Or.inr rfl)
  exact ⟨h.1, h.2.1⟩

/-- C9: each successful GET `/api/posts/:postId` increments the post's
`views` field by exactly 1, persists it, and leaves every other field of
the post unchanged. -/
theorem getPost_increments_views (store : List Post) (postId : String)
    (post : Post) (h : findById store postId = some post) :
    ∃ p2 : Post,
      getPostRoute store postId =
        ⟨200, Body.post p2, savePost store p2, []⟩ ∧
      findById (getPostRoute store postId).store postId = some p2 ∧
      p2.views = post.views + 1 ∧
      p2.title = post.title ∧ p2.description = post.description ∧
      p2.images = post.images ∧ p2.likes = post.likes ∧
      p2.saves = post.saves ∧ p2.comments = post.comments ∧
      p2.user = post.user ∧ p2.pid = post.pid := by
  have e1 : getPostRoute store postId =
      ⟨200, Body.post { post with views := post.views + 1 },
        savePost store { post with views := post.views + 1 }, []⟩ := by
    simp [getPostRoute, h]
  refine ⟨{ post with views := post.views + 1 }, e1, ?_,
    rfl, rfl, rfl, rfl, rfl, rfl, rfl, rfl, rfl⟩
  rw [e1]
  exact findById_savePost store h _ rfl

/-- C9 witness: the view-count theorem applied to the sample store. -/
theorem getPost_increments_views_witness :
    ∃ p2 : Post,
      getPostRoute sampleStore "p1" =
        ⟨200, Body.post p2, savePost sampleStore p2, []⟩ ∧
      findById (getPostRoute sampleStore "p1").store "p1" = some p2 ∧
      p2.views = samplePost.views + 1 ∧
      p2.title = samplePost.title ∧
      p2.description = samplePost.description ∧
      p2.images = samplePost.images ∧ p2.likes = samplePost.likes ∧
      p2.saves = samplePost.saves ∧ p2.comments = samplePost.comments ∧
      p2.user = samplePost.user ∧ p2.pid = samplePost.pid :=
  getPost_increments_views sampleStore "p1" samplePost (by decide)

/-- A sample follower store: `ua` follows `owner`. -/
def sampleFollowers : List FollowerDoc := [⟨"ua", [⟨"owner"⟩]⟩]

/-- C5: for every page `p ≥ 1` and limit `l ≥ 1` (defaulting to `1` and
`12` when the query parameters are absent or unparsable), GET
`/api/posts` returns the posts obtained by skipping `(p - 1) * l`
documents and taking at most `l` of them in descending `createdAt`
order, with `next = p + 1` when `p * l` is strictly below the total
count and `null` otherwise; GET `/api/posts/feed` computes `next` by the
same arithmetic over the posts of followed users. -/
theorem pagination_offset_arithmetic (store : List Post)
    (followerStore : List FollowerDoc) (userId : String)
    (fdoc : FollowerDoc) (p l : Nat) (hp : 1 ≤ p) (hl : 1 ≤ l)
    (hf : followerStore.find? (fun f => f.user == userId) = some fdoc) :
    (getPostsRoute store (some (p : Int)) (some (l : Int)) =
      ⟨200,
        Body.page (((sortByCreatedAtDesc store).drop ((p - 1) * l)).take l)
          (if p * l < store.length then some ((p : Int) + 1) else none),
        store, []⟩) ∧
    getPostsRoute store none none = getPostsRoute store (some 1) (some 12) ∧
    List.Perm (sortByCreatedAtDesc store) store ∧
    (sortByCreatedAtDesc store).Pairwise
      (fun a b => b.createdAt ≤ a.createdAt) ∧
    (feedRoute store followerStore userId (some (p : Int)) (some (l : Int)) =
      ⟨200,
        Body.page
          (((sortByCreatedAtDesc (store.filter (fun q =>
              (fdoc.following.map (fun f => f.user)).contains
                q.user))).drop ((p - 1) * l)).take l)
          (if p * l < (store.filter (fun q =>
              (fdoc.following.map (fun f => f.user)).contains
                q.user)).length
            then some ((p : Int) + 1) else none),
        store, []⟩) := by
  have hpz : ((p : Int) == 0) = false := by
    have hne : (p : Int) ≠ 0 := by
      have : p ≠ 0 := by omega
      exact_mod_cast this
    simp [hne]
  have hlz : ((l : Int) == 0) = false := by
    have hne : (l : Int) ≠ 0 := by
      have : l ≠ 0 := by omega
      exact_mod_cast this
    simp [hne]
  have hidx : (((p : Int) - 1) * (l : Int)).toNat = (p - 1) * l := by
    have h1 : ((p : Int) - 1) * (l : Int) = (((p - 1) * l : Nat) : Int) := by
      push_cast [Nat.cast_sub hp]
      ring
    rw [h1]
    exact Int.toNat_natCast _
  have hlen : ((l : Int)).toNat = l := Int.toNat_natCast l
  have hjp : jsOr (some (p : Int)) 1 = (p : Int) := by simp [jsOr, hpz]
  have hjl : jsOr (some (l : Int)) 12 = (l : Int) := by simp [jsOr, hlz]
  refine ⟨?_, ?_, ?_, ?_, ?_⟩
  · have hnext : ((p : Int) * (l : Int) < (store.length : Int)) =
        (p * l < store.length) := by
      apply propext
      exact_mod_cast Iff.rfl
    simp only [getPostsRoute, hjp, hjl, hidx, hlen, hnext]
  · rfl
  · exact List.mergeSort_perm store _
  · have htr : ∀ a b c : Post,
        decide (b.createdAt ≤ a.createdAt) →
        decide (c.createdAt ≤ b.createdAt) →
        decide (c.createdAt ≤ a.createdAt) := by
      intro a b c hab hbc
      simp only [decide_eq_true_eq] at *
      omega
    have hto : ∀ a b : Post,
        decide (b.createdAt ≤ a.createdAt) ||
        decide (a.createdAt ≤ b.createdAt) := by
      intro a b
      rcases Nat.le_total b.createdAt a.createdAt with hab | hab <;>
        simp [hab]
    have hpair := List.sorted_mergeSort htr hto store
    refine hpair.imp ?_
    intro a b hab
    simpa using hab
  · have hnext : ((p : Int) * (l : Int) <
        ((store.filter (fun q =>
          (fdoc.following.map (fun f => f.user)).contains
            q.user)).length : Int)) =
        (p * l < (store.filter (fun q =>
          (fdoc.following.map (fun f => f.user)).contains
            q.user)).length) := by
      apply propext
      exact_mod_cast Iff.rfl
    simp only [feedRoute, hf, hjp, hjl, hidx, hlen, hnext]

/-- C5 witness: the pagination theorem applied to the sample store with
page 1 and limit 2. -/
theorem pagination_offset_arithmetic_witness :
    getPostsRoute sampleStore (some 1) (some 2) =
      ⟨200, Body.page [samplePost] none, sampleStore, []⟩ := by
  have h := (pagination_offset_arithmetic sampleStore sampleFollowers
    "ua" ⟨"ua", [⟨"owner"⟩]⟩ 1 2 (by decide) (by decide) (by decide)).1
  rw [show ((1 : Nat) : Int) = (1 : Int) from rfl,
    show ((2 : Nat) : Int) = (2 : Int) from rfl] at h
  rw [h]
  simp [sortByCreatedAtDesc, sampleStore]

/-- C10: each notification helper (`newLikeNotification`,
`removeLikeNotification`, `newCommentNotification`,
`removeCommentNotification`) is invoked on a successful like, unlike,
comment-add, or comment-delete exactly when the post's owner differs
from the acting user; a user acting on their own post never triggers a
notification call. -/
theorem notification_iff_foreign_owner (store : List Post)
    (users : List UserDoc) (postId commentId userId text newId : String)
    (now : Nat) (post : Post) (comment : CommentDoc) (u : UserDoc)
    (hpost : findById store postId = some post) :
    ((∃ e ∈ post.likes, e.user = userId) →
      (likeRoute store postId userId).notifs =
        if post.user = userId then []
        else [NotifCall.removeLike post.user userId postId]) ∧
    ((∀ e ∈ post.likes, e.user ≠ userId) →
      (likeRoute store postId userId).notifs =
        if post.user = userId then []
        else [NotifCall.newLike post.user userId postId]) ∧
    (1 ≤ text.length →
      (addCommentRoute store postId userId text newId now).notifs =
        if post.user = userId then []
        else [NotifCall.newComment post.user userId postId newId text]) ∧
    (post.comments.find? (fun c => c.cid == commentId) = some comment →
      findUser users userId = some u →
      (comment.user = userId ∨ u.role = "root") →
      (deleteCommentRoute store users postId commentId userId).notifs =
        if post.user = userId then []
        else [NotifCall.removeComment post.user userId postId
          comment.cid]) := by
  refine ⟨?_, ?_, ?_, ?_⟩
  · intro hmem
    have hc : (post.likes.filter (fun e => e.user == userId)).length > 0 := by
      obtain ⟨e, he, heq⟩ := hmem
      exact List.length_pos.mpr (List.ne_nil_of_mem
        (List.mem_filter.mpr ⟨he, by simp [heq]⟩))
    by_cases hu : post.user = userId <;>
      simp [likeRoute_spec hpost, hc, hu]
  · intro habs
    have hc : ¬((post.likes.filter (fun e => e.user == userId)).length
        > 0) := by
      intro hpos
      obtain ⟨e, he⟩ := List.exists_mem_of_ne_nil _
        (List.ne_nil_of_length_pos hpos)
      have := List.mem_filter.mp he
      exact habs e this.1 (by simpa using this.2)
    by_cases hu : post.user = userId <;>
      simp [likeRoute_spec hpost, hc, hu]
  · intro htext
    have hnlt : ¬(text.length < 1) := by omega
    by_cases hu : post.user = userId <;>
      simp [addCommentRoute, hpost, hnlt, hu]
  · intro hcomment huser hauth
    have hcond : (comment.user == userId || u.role == "root") = true := by
      rcases hauth with h1 | h1 <;> simp [h1]
    by_cases hu : post.user = userId <;>
      simp [deleteCommentRoute, hpost, hcomment, huser, hcond, hu]

/-- C10 witness: liker `ua` already likes the sample post of `owner`;
unliking triggers exactly one `removeLikeNotification` call. -/
theorem notification_iff_foreign_owner_witness :
    (likeRoute sampleStore "p1" "ua").notifs =
      [NotifCall.removeLike "owner" "ua" "p1"] := by
  have h := (notification_iff_foreign_owner sampleStore sampleUsers
    "p1" "c1" "ua" "hello" "n1" 0 samplePost ⟨"c1", "ua", "hi", 0⟩
    ⟨"ua", "user"⟩ (by decide)).1 ⟨⟨"ua"⟩, by decide, rfl⟩
  rw [h]
  decide

end Driwwwle
